import Mathlib

/-
Verification of tunnelmon (tunnelmon.py): a shallow embedding of the tunnel
discovery engine (`TunnelsParser`), its command-line classifier (`parse`),
the text rendering (`repr_tunnel`, `__repr__`, `format`) and the interactive
monitor's command handlers (`do_R`, `do_C`), together with theorems checking
the natural-language specification against this embedding.

Conventions: pids are `Nat` in process records; the monitor's selection
state uses `Int` (the source uses `-1` sentinels).  Python exceptions are
modelled with `Except`; an uncaught exception in `update` is an `Except.error`
carrying the partially built registry (the source mutates `self.tunnels` in
place, so the entries added before the exception remain).  The regular
expression `-\w*([LRD])\w*\s*(\d+):(.*):(\d+)` and `re.findall` are embedded
as an explicit backtracking matcher over `List Char`; `\w` is modelled in its
ASCII range (alphanumeric or underscore), which covers every string the
development evaluates.
-/

set_option autoImplicit false

namespace Tunnelmon

/-! ## Character classes of the regular expression -/

/-- ASCII fragment of Python's `\w`: letters, digits, underscore. -/
def isWordChar (c : Char) : Bool :=
  c.isAlphanum || c = '_'

/-- Python's `\s`: space, tab, newline, carriage return, vertical tab, form feed. -/
def isSpaceChar (c : Char) : Bool :=
  c = ' ' || c = '\t' || c = '\n' || c = '\r' || c = '\x0b' || c = '\x0c'

/-- Python's `.` without `re.DOTALL`: any character except a newline. -/
def isDotChar (c : Char) : Bool :=
  c != '\n'

/-! ## A backtracking matcher for `-\w*([LRD])\w*\s*(\d+):(.*):(\d+)`

Greedy quantifiers try the longest prefix first; `pSplits` returns every
split of the input into a `p`-prefix and the remaining suffix, longest
prefix first, which is exactly the order a backtracking engine explores. -/

/-- All splits `(taken, rest)` of the input where `taken` is a prefix of
`p`-characters, ordered longest `taken` first. -/
def pSplits (p : Char → Bool) : List Char → List (List Char × List Char)
  | [] => [([], [])]
  | c :: cs =>
    if p c then
      ((pSplits p cs).map (fun ab => (c :: ab.1, ab.2))) ++ [([], c :: cs)]
    else
      [([], c :: cs)]

/-- Splits for `\d+`: like `pSplits Char.isDigit` but the prefix must be nonempty. -/
def digitSplits (s : List Char) : List (List Char × List Char) :=
  (pSplits (fun c => c.isDigit) s).filter (fun ab => !ab.1.isEmpty)

/-- First success of `f` over a list of alternatives, in order. -/
def firstSome {α β : Type} (f : α → Option β) : List α → Option β
  | [] => none
  | a :: rest =>
    match f a with
    | some b => some b
    | none => firstSome f rest

/-- Trailing `(\d+)` of the pattern: greedy digits, nothing after. -/
def stage4 (s : List Char) : Option (List Char × List Char) :=
  match digitSplits s with
  | [] => none
  | d :: _ => some d

/-- `(.*):(\d+)`: greedy dot-star, then a literal colon, then `stage4`. -/
def stage3 (s : List Char) : Option (List Char × List Char × List Char) :=
  firstSome (fun es =>
    match es.2 with
    | ':' :: s9 => (stage4 s9).map (fun d => (es.1, d.1, d.2))
    | _ => none) (pSplits isDotChar s)

/-- `(\d+):(.*):(\d+)`: greedy digits, a literal colon, then `stage3`. -/
def stage2 (s : List Char) : Option (List Char × List Char × List Char × List Char) :=
  firstSome (fun ds =>
    match ds.2 with
    | ':' :: s7 => (stage3 s7).map (fun r => (ds.1, r.1, r.2.1, r.2.2))
    | _ => none) (digitSplits s)

/-- `\s*` then `stage2`. -/
def stageSp (s : List Char) : Option (List Char × List Char × List Char × List Char) :=
  firstSome (fun sp => stage2 sp.2) (pSplits isSpaceChar s)

/-- `\w*` after the captured letter, then `stageSp`. -/
def stageB (s : List Char) : Option (List Char × List Char × List Char × List Char) :=
  firstSome (fun bs => stageSp bs.2) (pSplits isWordChar s)

/-- `([LRD])` then `stageB`; the captured letter heads the result. -/
def stageL : List Char → Option (Char × List Char × List Char × List Char × List Char)
  | [] => none
  | l :: s3 =>
    if l = 'L' || l = 'R' || l = 'D' then
      (stageB s3).map (fun r => (l, r))
    else
      none

/-- `\w*` after the leading dash, then `stageL`. -/
def stageA (s : List Char) : Option (Char × List Char × List Char × List Char × List Char) :=
  firstSome (fun ap => stageL ap.2) (pSplits isWordChar s)

/-- One match of the forwarding pattern: captured groups and unconsumed suffix. -/
structure FwdMatch where
  fwd : Char
  inp : List Char
  tgt : List Char
  outp : List Char
deriving DecidableEq

/-- Attempt the pattern anchored at the head of `s` (a leading `-` required). -/
def matchAt : List Char → Option (FwdMatch × List Char)
  | '-' :: s1 =>
    (stageA s1).map (fun r => (⟨r.1, r.2.1, r.2.2.1, r.2.2.2.1⟩, r.2.2.2.2))
  | _ => none

/-- `re.findall` scan: try each position left to right, resume after a match.
`fuel` bounds recursion; every step consumes at least one character, so
`s.length + 1` is always enough. -/
def findallAux : Nat → List Char → List FwdMatch
  | 0, _ => []
  | _ + 1, [] => []
  | fuel + 1, c :: cs =>
    match matchAt (c :: cs) with
    | some (m, rest) => m :: findallAux fuel rest
    | none => findallAux fuel cs

/-- All non-overlapping matches of the forwarding pattern, left to right. -/
def findall (s : List Char) : List FwdMatch :=
  findallAux (s.length + 1) s

/-! ## The classifier `TunnelsParser.parse` -/

/-- `int()` on a digit string. -/
def natOfDigits (l : List Char) : Nat :=
  l.foldl (fun n c => 10 * n + (c.toNat - '0'.toNat)) 0

/-- Exceptions `parse` can raise: `ValueError` (zero regex matches),
`AssertionError` (`assert len(match) == 1` with several matches), and
`IndexError` (indexing `cmd[i][1]` or `cmd[i+1][0]` on a too-short token). -/
inductive ParseErr where
  | valueError
  | assertionError
  | indexError
deriving DecidableEq

/-- The flags `'46AaCfGgKkMNnqsTtVvXxYy'` taking no argument. -/
def noArgFlags : List Char :=
  "46AaCfGgKkMNnqsTtVvXxYy".data

/-- Outcome of examining one token of the via-host scan: `IndexError`, token
taken as via-host, skip the token alone, or skip it with its argument. -/
inductive ViaSel where
  | err
  | found
  | skipOne
  | skipTwo
deriving DecidableEq

/-- The test `cmd[i+1][0] != '-'` on the next token's characters, evaluated
only when `len(cmd[i]) == 2` and a next token exists (`none` = it does not,
i.e. `i = len(cmd) - 1`, in which case no skip happens). -/
def viaSelArg : Option (List Char) → ViaSel
  | none => .skipOne
  | some [] => .err
  | some (d :: _) => if d = '-' then .skipOne else .skipTwo

/-- The branch for a token starting with `-`: `ctail` are its characters
after the dash (`cmd[i][1]` raises on a bare dash), `len` its length. -/
def viaSelDash : List Char → Nat → Option (List Char) → ViaSel
  | [], _, _ => .err
  | c2 :: _, len, next =>
    if noArgFlags.contains c2 then
      .skipOne
    else if len = 2 then
      viaSelArg next
    else
      .skipOne

/-- The decision the loop body takes for one token, given its characters, its
length and the next token's characters. -/
def viaSel : List Char → Nat → Option (List Char) → ViaSel
  | [], _, _ => .err
  | c :: ctail, len, next =>
    if c = '-' then viaSelDash ctail len next else .found

/-- The via-host scan of `parse`, lines 189-204: walk the argument vector from
index 1 (here: over the suffix after the head); a `-`-token with a known
no-argument second character is skipped alone; otherwise a two-character
`-`-token whose successor exists and does not start with `-` also consumes
that successor; the first token not starting with `-` is the via-host;
exhaustion yields `"unknown"`.  Indexing an empty token (`cmd[i][0]`,
`cmd[i+1][0]`) or a bare `"-"` (`cmd[i][1]`) raises `IndexError`. -/
def viaLoop : List String → Except ParseErr String
  | [] => .ok "unknown"
  | [t] =>
    match viaSel t.data t.length none with
    | .err => .error .indexError
    | .found => .ok t
    | .skipOne => .ok "unknown"
    | .skipTwo => .ok "unknown"
  | t :: u :: rest2 =>
    match viaSel t.data t.length (some u.data) with
    | .err => .error .indexError
    | .found => .ok t
    | .skipOne => viaLoop (u :: rest2)
    | .skipTwo => viaLoop rest2

/-- The 5-tuple returned by `parse`. -/
structure ParseOk where
  in_port : Nat
  via_host : String
  target_host : String
  out_port : Nat
  forward : Char
deriving DecidableEq

/-- `TunnelsParser.parse`: join the argument vector with spaces, run
`re.findall` on the forwarding pattern; no match raises `ValueError`, several
matches fail the `assert len(match) == 1`; then scan for the via-host. -/
def parse (cmd : List String) : Except ParseErr ParseOk :=
  match findall (" ".intercalate cmd).data with
  | [] => .error .valueError
  | [m] =>
    match viaLoop (cmd.drop 1) with
    | .error e => .error e
    | .ok v => .ok ⟨natOfDigits m.inp, v, String.mk m.tgt, natOfDigits m.outp, m.fwd⟩
  | _ :: _ :: _ => .error .assertionError

/-! ## Data model: `Connection`, `Tunnel`, the ordered registry -/

/-- Socket address family (`psutil` reports `AF_INET`, `AF_INET6`, `AF_UNIX`). -/
inductive Family where
  | inet
  | inet6
  | unix
deriving DecidableEq

/-- `Connection.family_rep`. -/
def familyRep : Family → String
  | .inet => "INET"
  | .inet6 => "INET6"
  | .unix => "UNIX"

/-- One socket attached to a tunnel (`Connection`): remote address and port
are absent together when `c.raddr` is empty. -/
structure Connection where
  local_address : String
  in_port : Nat
  foreign_address : Option String
  out_port : Option Nat
  status : String
  family : Family
deriving DecidableEq

/-- Python's truthiness test `if self.foreign_address and self.out_port:`
(`None`, the empty string and `0` are falsy). -/
def Connection.hasRemote (c : Connection) : Bool :=
  (match c.foreign_address with | none => false | some a => a ≠ "") &&
  (match c.out_port with | none => false | some p => p ≠ 0)

/-- `Connection.__repr__`. -/
def Connection.reprConn (c : Connection) : String :=
  if c.hasRemote then
    familyRep c.family ++ "\t" ++ c.status ++ "\t" ++ c.local_address ++ ":" ++
      toString c.in_port ++ " → " ++ (c.foreign_address.getD "") ++ ":" ++
      toString (c.out_port.getD 0)
  else
    familyRep c.family ++ "\t" ++ c.status ++ "\t" ++ c.local_address ++ ":" ++
      toString c.in_port

/-- Discriminant of the `Tunnel` hierarchy: `AutoTunnel` carries the
supervising autossh pid, `RawTunnel` has no extra field. -/
inductive TKind where
  | auto (autossh_pid : Nat)
  | raw
deriving DecidableEq

/-- `Tunnel.forwards` lookup: map a forward code to its name, anything
outside the table is `"unknown"`. -/
def forwardName (c : Char) : String :=
  if c = 'L' then "local"
  else if c = 'R' then "remote"
  else if c = 'D' then "dynamic"
  else if c = 'V' then "reverse"
  else "unknown"

/-- A tunnel entity (`Tunnel` with its `AutoTunnel`/`RawTunnel` variant). -/
structure Tunnel where
  kind : TKind
  ssh_pid : Nat
  in_port : Nat
  via_host : String
  target_host : String
  out_port : Nat
  forward : String
  connections : List Connection
deriving DecidableEq

/-- `AutoTunnel.repr_tunnel` / `RawTunnel.repr_tunnel`: the variant prefix
followed by `"%s\t%i\t%i\t%s\t%s\t%i"` of the base class. -/
def Tunnel.repr_tunnel (t : Tunnel) : String :=
  (match t.kind with | .auto _ => "auto\t" | .raw => "ssh\t") ++
  (t.forward ++ "\t" ++ toString t.ssh_pid ++ "\t" ++ toString t.in_port ++ "\t" ++
    t.via_host ++ "\t" ++ t.target_host ++ "\t" ++ toString t.out_port)

/-- `Tunnel.repr_connections`: one `"\n\t↳ "`-prefixed line per connection. -/
def Tunnel.repr_connections (t : Tunnel) : String :=
  String.join (t.connections.map (fun c => "\n\t↳ " ++ c.reprConn))

/-- `Tunnel.__repr__`. -/
def Tunnel.reprFull (t : Tunnel) : String :=
  t.repr_tunnel ++ t.repr_connections

/-- The registry `self.tunnels`: an insertion-ordered pid-to-tunnel mapping
(`collections.OrderedDict`), embedded as an association list. -/
abbrev Registry : Type := List (Nat × Tunnel)

/-- `OrderedDict` assignment `d[k] = v`: replace in place when the key is
present (keeping its position), otherwise append at the end. -/
def odSet : Registry → Nat → Tunnel → Registry
  | [], k, v => [(k, v)]
  | (k', v') :: rest, k, v =>
    if k' = k then (k, v) :: rest else (k', v') :: odSet rest k v

/-- `OrderedDict` lookup `d[k]`. -/
def odGet? : Registry → Nat → Option Tunnel
  | [], _ => none
  | (k', v') :: rest, k => if k' = k then some v' else odGet? rest k

/-- `OrderedDict.popitem()` (LIFO): drop the most recently inserted entry. -/
def popLast (r : Registry) : Registry :=
  r.dropLast

/-- The key list, in insertion order (`list(self.tunnels.keys())`). -/
def rkeys (r : Registry) : List Nat :=
  r.map Prod.fst

/-- `TunnelsParser.header`. -/
def tpHeader : String :=
  "TYPE\tFORWARD\tSSHPID\tINPORT\tVIA\tTARGET\tOUTPORT"

/-- `TunnelsParser.__repr__`: the header then `str(t)` for every tunnel in
insertion order, joined with newlines. -/
def tpRepr (r : Registry) : String :=
  "\n".intercalate (tpHeader :: r.map (fun kv => kv.2.reprFull))

/-! ## `TunnelsParser.update` -/

/-- One socket as reported by `psutil` (`process['connections']` entry). -/
structure SockInfo where
  laddr : String × Nat
  raddr : Option (String × Nat)
  status : String
  family : Family
deriving DecidableEq

/-- Lines 245-250: unpack `c.laddr`, take `c.raddr` when truthy. -/
def mkConnection (s : SockInfo) : Connection :=
  ⟨s.laddr.1, s.laddr.2, s.raddr.map Prod.fst, s.raddr.map Prod.snd, s.status, s.family⟩

/-- `proc.as_dict(attrs=['pid', 'ppid', 'name', 'cmdline', 'connections'])`. -/
structure ProcInfo where
  pid : Nat
  ppid : Nat
  name : String
  cmdline : List String
  connections : List SockInfo

/-- Exceptions escaping `update`: an uncaught `parse` failure
(`AssertionError` / `IndexError`; `ValueError` is caught) or `NoSuchProcess`
raised by the parent lookup `psutil.Process(process['ppid'])`. -/
inductive UpdateErr where
  | parseErr (e : ParseErr)
  | noSuchProcess
deriving DecidableEq

/-- The sshd connection partition, lines 272-290: `ESTABLISHED` sockets are
prepended (`insert(0, ...)`) and set `con_est`; all others are appended and
set `con_lis`.  The accumulator is the connection list so far and the two
flags. -/
def sshdStep (acc : List Connection × Bool × Bool) (c : SockInfo) :
    List Connection × Bool × Bool :=
  if c.status = "ESTABLISHED" then
    (mkConnection c :: acc.1, true, acc.2.2)
  else
    (acc.1 ++ [mkConnection c], acc.2.1, true)

/-- The full connection pass of the sshd branch. -/
def sshdFold (conns : List SockInfo) : List Connection × Bool × Bool :=
  conns.foldl sshdStep ([], false, false)

/-- One iteration of the `update` loop over `psutil.process_iter()`.

`p? = none` models a process that vanished before `as_dict` returned
(`psutil.NoSuchProcess` is caught and the process skipped).  `parentOf`
models `psutil.Process(ppid).name()`: `none` when the parent is gone (the
exception is NOT caught there), `some name` otherwise.  `euid` is
`os.geteuid()`.  Registry writes that the source performs one connection at
a time on `self.tunnels[pid]` are batched into a single `odSet` with the
final connection list, which is observationally the same. -/
def step (euid : Nat) (parentOf : Nat → Option String) (reg : Registry) :
    Option ProcInfo → Except UpdateErr Registry
  | none => .ok reg
  | some p =>
    if p.name = "ssh" then
      match parse p.cmdline with
      | .error .valueError => .ok reg
      | .error e => .error (.parseErr e)
      | .ok r =>
        match parentOf p.ppid with
        | none => .error .noSuchProcess
        | some pname =>
          let conns := p.connections.map mkConnection
          if pname = "autossh" then
            .ok (odSet reg p.ppid
              ⟨.auto p.ppid, p.pid, r.in_port, r.via_host, r.target_host,
                r.out_port, forwardName r.forward, conns⟩)
          else
            .ok (odSet reg p.pid
              ⟨.raw, p.pid, r.in_port, r.via_host, r.target_host,
                r.out_port, forwardName r.forward, conns⟩)
    else if p.name = "sshd" then
      if euid ≠ 0 then
        .ok reg
      else
        let res := sshdFold p.connections
        let reg2 := odSet reg p.pid
          ⟨.raw, p.pid, 0, "unknown", "unknown", 0, forwardName 'V', res.1⟩
        if !res.2.1 || !res.2.2 then .ok (popLast reg2) else .ok reg2
    else
      .ok reg

/-- The `update` loop from a given registry state; an uncaught exception
carries the registry as built so far (the source mutates it in place). -/
def updateAux (euid : Nat) (parentOf : Nat → Option String) :
    Registry → List (Option ProcInfo) → Except (UpdateErr × Registry) Registry
  | reg, [] => .ok reg
  | reg, p :: ps =>
    match step euid parentOf reg p with
    | .ok reg' => updateAux euid parentOf reg' ps
    | .error e => .error (e, reg)

/-- `TunnelsParser.update`: clear the registry (`self.tunnels.clear()`) and
scan every process. -/
def update (euid : Nat) (parentOf : Nat → Option String)
    (procs : List (Option ProcInfo)) : Except (UpdateErr × Registry) Registry :=
  updateAux euid parentOf [] procs

/-! ## `CursesMonitor`: selection state and the `do_R` / `do_C` handlers -/

/-- The monitor state the handlers touch: the parser's registry, the selected
line `cur_line` and the tracked controlling pid `cur_pid` (both `-1` when
nothing is selected). -/
structure MonState where
  tunnels : Registry
  cur_line : Int
  cur_pid : Int
deriving DecidableEq

/-- Python list indexing `l[i]`: nonnegative indices from the front, negative
indices from the back, `IndexError` (here `none`) outside `[-len, len)`. -/
def pyIndex {α : Type} (l : List α) (i : Int) : Option α :=
  if 0 ≤ i then l.get? i.toNat
  else if (l.length : Int) + i < 0 then none
  else l.get? ((l.length : Int) + i).toNat

/-- `TunnelsParser.get_tunnel(pos)`: `list(self.tunnels.keys())[pos]` then the
mapped tunnel — positionally, the `pos`-th entry of the registry. -/
def getTunnel (r : Registry) (pos : Int) : Option Tunnel :=
  (pyIndex r pos).map Prod.snd

/-- Exceptions escaping a handler: an uncaught `os.kill` failure
(`ProcessLookupError`, an `OSError`) or `get_tunnel`'s `IndexError`. -/
inductive UiErr where
  | osError
  | indexError
deriving DecidableEq

/-- `CursesMonitor.do_R`: with a pid selected and an `AutoTunnel` under the
cursor, `os.kill(self.cur_pid, SIGUSR1)` — with NO try/except, so a dead
target pid (`alive` false) raises.  The result carries the `notquit` flag,
the state, and the list of pids a signal was delivered to. -/
def do_R (alive : Int → Bool) (s : MonState) :
    Except UiErr (Bool × MonState × List Int) :=
  if s.cur_pid ≠ -1 then
    match getTunnel s.tunnels s.cur_line with
    | none => .error .indexError
    | some t =>
      match t.kind with
      | .auto _ =>
        if alive s.cur_pid then .ok (true, s, [s.cur_pid]) else .error .osError
      | .raw => .ok (true, s, [])
  else
    .ok (true, s, [])

/-- `CursesMonitor.do_C`: with a pid selected, SIGKILL the supervisor pid
(AutoTunnel only) and the ssh pid, each wrapped in try/except OSError (a dead
target is only logged); afterwards — selected or not — decrement `cur_line`
and reset `cur_pid` to `-1`.  The third component lists the pids a signal was
attempted on. -/
def do_C (_alive : Int → Bool) (s : MonState) :
    Except UiErr (Bool × MonState × List Int) :=
  if s.cur_pid ≠ -1 then
    match getTunnel s.tunnels s.cur_line with
    | none => .error .indexError
    | some t =>
      let sigs := (match t.kind with | .auto _ => [s.cur_pid] | .raw => []) ++
        [(t.ssh_pid : Int)]
      .ok (true, { s with cur_line := s.cur_line - 1, cur_pid := -1 }, sigs)
  else
    .ok (true, { s with cur_line := s.cur_line - 1, cur_pid := -1 }, [])

/-- `n` consecutive close keystrokes (stopping early on an exception). -/
def closeIter (alive : Int → Bool) : Nat → MonState → MonState
  | 0, s => s
  | n + 1, s =>
    match do_C alive s with
    | .ok (_, s', _) => closeIter alive n s'
    | .error _ => s

/-! ## `CursesMonitor.format`: column widths -/

/-- Python `str.split()` (no separator): split on whitespace runs, dropping
empty fragments.  The accumulator holds the current word reversed. -/
def pySplitAux : List Char → List Char → List (List Char)
  | [], acc => if acc.isEmpty then [] else [acc.reverse]
  | c :: cs, acc =>
    if isSpaceChar c then
      if acc.isEmpty then pySplitAux cs [] else acc.reverse :: pySplitAux cs []
    else
      pySplitAux cs (c :: acc)

/-- `str.split()` on char lists. -/
def pySplitChars (s : List Char) : List (List Char) :=
  pySplitAux s []

/-- `str.split()` on strings. -/
def pySplit (s : String) : List String :=
  (pySplitChars s.data).map String.mk

/-- `max` of a list of naturals (0 on the empty list). -/
def listMax (l : List Nat) : Nat :=
  l.foldr max 0

/-- `itertools.zip_longest(*tuns, fillvalue='')` followed by
`[max(len(s) for s in col) for col in cols]`: one width per column, padding
short rows with the empty string. -/
def colWidths (rows : List (List String)) : List Nat :=
  (List.range (listMax (rows.map List.length))).map
    (fun j => listMax (rows.map (fun r => (r.getD j "").length)))

/-- `CursesMonitor.header`. -/
def headerCells : List String :=
  ["TYPE", "FORWARD", "SSHPID", "INPORT", "VIA", "TARGET", "OUTPORT"]

/-- The widths computed by `CursesMonitor.format`: split each tunnel's
`repr_tunnel()` on whitespace, append the header tuple, and take column
maxima. -/
def fmtWidths (r : Registry) : List Nat :=
  colWidths ((r.map (fun kv => pySplit kv.2.repr_tunnel)) ++ [headerCells])

/-- The seven true cells of a tunnel's row, one per header column. -/
def trueCells (t : Tunnel) : List String :=
  [(match t.kind with | .auto _ => "auto" | .raw => "ssh"),
   t.forward, toString t.ssh_pid, toString t.in_port,
   t.via_host, t.target_host, toString t.out_port]

/-! ## Helper lemmas: the captured forward letter is `L`, `R` or `D` -/

theorem firstSome_eq_some {α β : Type} {f : α → Option β} {l : List α} {b : β}
    (h : firstSome f l = some b) : ∃ a ∈ l, f a = some b := by
  induction l with
  | nil => simp [firstSome] at h
  | cons a rest ih =>
    rw [firstSome] at h
    cases hfa : f a with
    | some b' =>
      rw [hfa] at h
      exact ⟨a, List.mem_cons_self a rest, by rw [hfa]; exact h⟩
    | none =>
      rw [hfa] at h
      obtain ⟨x, hx, hfx⟩ := ih h
      exact ⟨x, List.mem_cons_of_mem a hx, hfx⟩

theorem stageL_fwd {s : List Char} {r : Char × List Char × List Char × List Char × List Char}
    (h : stageL s = some r) : r.1 = 'L' ∨ r.1 = 'R' ∨ r.1 = 'D' := by
  cases s with
  | nil => simp [stageL] at h
  | cons l s3 =>
    rw [stageL] at h
    by_cases hl : (l = 'L' || l = 'R' || l = 'D') = true
    · rw [if_pos hl] at h
      obtain ⟨r', _, hr⟩ := Option.map_eq_some'.mp h
      have hr1 : r.1 = l := by rw [← hr]
      rw [hr1]
      have hl2 : (l = 'L' ∨ l = 'R') ∨ l = 'D' := by
        simpa [Bool.or_eq_true, decide_eq_true_eq] using hl
      tauto
    · rw [if_neg hl] at h
      exact absurd h (by simp)

theorem stageA_fwd {s : List Char} {r : Char × List Char × List Char × List Char × List Char}
    (h : stageA s = some r) : r.1 = 'L' ∨ r.1 = 'R' ∨ r.1 = 'D' := by
  obtain ⟨a, _, ha⟩ := firstSome_eq_some h
  exact stageL_fwd ha

theorem matchAt_fwd {s : List Char} {m : FwdMatch} {rest : List Char}
    (h : matchAt s = some (m, rest)) : m.fwd = 'L' ∨ m.fwd = 'R' ∨ m.fwd = 'D' := by
  unfold matchAt at h
  split at h
  · obtain ⟨r', hr', hpack⟩ := Option.map_eq_some'.mp h
    have hmf : m.fwd = r'.1 := by
      have h1 := congrArg Prod.fst hpack
      have h2 := congrArg FwdMatch.fwd h1
      simpa using h2.symm
    rw [hmf]
    exact stageA_fwd hr'
  · exact absurd h (by simp)

theorem findallAux_fwd {fuel : Nat} {s : List Char} {m : FwdMatch}
    (h : m ∈ findallAux fuel s) : m.fwd = 'L' ∨ m.fwd = 'R' ∨ m.fwd = 'D' := by
  induction fuel generalizing s with
  | zero => simp [findallAux] at h
  | succ fuel ih =>
    cases s with
    | nil => simp [findallAux] at h
    | cons c cs =>
      rw [findallAux] at h
      split at h
      · rename_i m' rest hma
        rcases List.mem_cons.mp h with h1 | h2
        · exact h1 ▸ matchAt_fwd hma
        · exact ih h2
      · exact ih h

theorem parse_fwd {cmd : List String} {r : ParseOk} (h : parse cmd = .ok r) :
    r.forward = 'L' ∨ r.forward = 'R' ∨ r.forward = 'D' := by
  unfold parse at h
  cases hfa : findall (" ".intercalate cmd).data with
  | nil => rw [hfa] at h; exact absurd h (by simp)
  | cons m tail =>
    cases tail with
    | nil =>
      rw [hfa] at h
      have hm : m ∈ findall (" ".intercalate cmd).data := by
        rw [hfa]; exact List.mem_singleton_self m
      cases hv : viaLoop (cmd.drop 1) with
      | error e => rw [hv] at h; exact absurd h (by simp)
      | ok v =>
        rw [hv] at h
        have hrf : r.forward = m.fwd := by cases h; rfl
        rw [hrf]
        exact findallAux_fwd hm
    | cons m2 t2 => rw [hfa] at h; exact absurd h (by simp)

/-! ## Helper lemmas: the ordered registry -/

theorem odSet_not_mem {r : Registry} {k : Nat} {v : Tunnel} (h : k ∉ rkeys r) :
    odSet r k v = r ++ [(k, v)] := by
  induction r with
  | nil => rfl
  | cons kv rest ih =>
    have hk : kv.1 ≠ k := by
      intro he
      exact h (by simp [rkeys, he])
    have hr : k ∉ rkeys rest := by
      intro hm
      exact h (by simp [rkeys] at hm ⊢; exact Or.inr hm)
    show odSet (kv :: rest) k v = kv :: rest ++ [(k, v)]
    cases kv with
    | mk k' v' =>
      rw [odSet, if_neg hk, ih hr]
      rfl

theorem mem_odSet {r : Registry} {k : Nat} {v : Tunnel} {kt : Nat × Tunnel}
    (h : kt ∈ odSet r k v) : kt = (k, v) ∨ kt ∈ r := by
  induction r with
  | nil =>
    simp only [odSet, List.mem_singleton] at h
    exact Or.inl h
  | cons kv rest ih =>
    cases kv with
    | mk k' v' =>
      rw [odSet] at h
      by_cases he : k' = k
      · rw [if_pos he] at h
        rcases List.mem_cons.mp h with h1 | h2
        · exact Or.inl h1
        · exact Or.inr (List.mem_cons_of_mem _ h2)
      · rw [if_neg he] at h
        rcases List.mem_cons.mp h with h1 | h2
        · exact Or.inr (h1 ▸ List.mem_cons_self _ _)
        · rcases ih h2 with h3 | h4
          · exact Or.inl h3
          · exact Or.inr (List.mem_cons_of_mem _ h4)

theorem mem_popLast {r : Registry} {kt : Nat × Tunnel} (h : kt ∈ popLast r) : kt ∈ r :=
  List.dropLast_subset r h

theorem odGet?_not_mem {r : Registry} {k : Nat} (h : k ∉ rkeys r) :
    odGet? r k = none := by
  induction r with
  | nil => rfl
  | cons kv rest ih =>
    cases kv with
    | mk k' v' =>
      have hk : k' ≠ k := fun he => h (by simp [rkeys, he])
      rw [odGet?, if_neg hk]
      exact ih (fun hm => h (by simp [rkeys] at hm ⊢; exact Or.inr hm))

theorem odGet?_append_fresh {r : Registry} {k : Nat} {v : Tunnel} (h : k ∉ rkeys r) :
    odGet? (r ++ [(k, v)]) k = some v := by
  induction r with
  | nil => simp [odGet?]
  | cons kv rest ih =>
    cases kv with
    | mk k' v' =>
      have hk : k' ≠ k := fun he => h (by simp [rkeys, he])
      show odGet? ((k', v') :: (rest ++ [(k, v)])) k = some v
      rw [odGet?, if_neg hk]
      exact ih (fun hm => h (by simp [rkeys] at hm ⊢; exact Or.inr hm))

theorem odGet?_odSet_self (r : Registry) (k : Nat) (v : Tunnel) :
    odGet? (odSet r k v) k = some v := by
  induction r with
  | nil => simp [odSet, odGet?]
  | cons kv rest ih =>
    cases kv with
    | mk k' v' =>
      rw [odSet]
      by_cases he : k' = k
      · rw [if_pos he, odGet?, if_pos rfl]
      · rw [if_neg he, odGet?, if_neg he]
        exact ih

theorem odGet?_odSet_ne (r : Registry) (k k' : Nat) (v : Tunnel) (h : k' ≠ k) :
    odGet? (odSet r k v) k' = odGet? r k' := by
  induction r with
  | nil =>
    show odGet? [(k, v)] k' = none
    rw [odGet?, if_neg (fun he => h he.symm)]
    rfl
  | cons kv rest ih =>
    cases kv with
    | mk k0 v0 =>
      rw [odSet]
      by_cases he : k0 = k
      · rw [if_pos he]
        show odGet? ((k, v) :: rest) k' = odGet? ((k0, v0) :: rest) k'
        rw [odGet?, odGet?, if_neg (fun hx => h hx.symm),
          if_neg (fun hx : k0 = k' => h (hx ▸ he))]
      · rw [if_neg he]
        show odGet? ((k0, v0) :: odSet rest k v) k' = odGet? ((k0, v0) :: rest) k'
        rw [odGet?, odGet?]
        by_cases h2 : k0 = k'
        · rw [if_pos h2, if_pos h2]
        · rw [if_neg h2, if_neg h2]
          exact ih

/-! ## Helper lemmas: the sshd connection partition -/

theorem sshdFold_go (cs : List SockInfo) : ∀ acc : List Connection × Bool × Bool,
    (cs.foldl sshdStep acc).1 =
      ((cs.filter (fun c => decide (c.status = "ESTABLISHED"))).reverse.map mkConnection)
        ++ acc.1
        ++ ((cs.filter (fun c => !decide (c.status = "ESTABLISHED"))).map mkConnection) ∧
    (cs.foldl sshdStep acc).2.1
      = (acc.2.1 || cs.any (fun c => decide (c.status = "ESTABLISHED"))) ∧
    (cs.foldl sshdStep acc).2.2
      = (acc.2.2 || cs.any (fun c => !decide (c.status = "ESTABLISHED"))) := by
  induction cs with
  | nil => intro acc; simp
  | cons c cs ih =>
    intro acc
    rw [List.foldl_cons]
    obtain ⟨ih1, ih2, ih3⟩ := ih (sshdStep acc c)
    by_cases hc : c.status = "ESTABLISHED"
    · have hstep : sshdStep acc c = (mkConnection c :: acc.1, true, acc.2.2) := by
        rw [sshdStep, if_pos hc]
      refine ⟨?_, ?_, ?_⟩
      · rw [ih1, hstep]
        simp [List.filter_cons, hc, List.append_assoc]
      · rw [ih2, hstep]
        simp [hc]
      · rw [ih3, hstep]
        simp [hc]
    · have hstep : sshdStep acc c = (acc.1 ++ [mkConnection c], acc.2.1, true) := by
        rw [sshdStep, if_neg hc]
      refine ⟨?_, ?_, ?_⟩
      · rw [ih1, hstep]
        simp [List.filter_cons, hc, List.append_assoc]
      · rw [ih2, hstep]
        simp [hc]
      · rw [ih3, hstep]
        simp [hc]

theorem sshdFold_conns (cs : List SockInfo) :
    (sshdFold cs).1 =
      ((cs.filter (fun c => decide (c.status = "ESTABLISHED"))).reverse.map mkConnection)
        ++ ((cs.filter (fun c => !decide (c.status = "ESTABLISHED"))).map mkConnection) := by
  have h := (sshdFold_go cs ([], false, false)).1
  simpa [sshdFold] using h

theorem sshdFold_est (cs : List SockInfo) :
    (sshdFold cs).2.1 = cs.any (fun c => decide (c.status = "ESTABLISHED")) := by
  have h := (sshdFold_go cs ([], false, false)).2.1
  simpa [sshdFold] using h

theorem sshdFold_lis (cs : List SockInfo) :
    (sshdFold cs).2.2 = cs.any (fun c => !decide (c.status = "ESTABLISHED")) := by
  have h := (sshdFold_go cs ([], false, false)).2.2
  simpa [sshdFold] using h

/-! ## Helper lemmas: `step` and `updateAux` -/

theorem step_none (euid : Nat) (parentOf : Nat → Option String) (reg : Registry) :
    step euid parentOf reg none = .ok reg :=
  rfl

theorem step_other (euid : Nat) (parentOf : Nat → Option String) (reg : Registry)
    (p : ProcInfo) (h1 : p.name ≠ "ssh") (h2 : p.name ≠ "sshd") :
    step euid parentOf reg (some p) = .ok reg := by
  simp only [step]
  rw [if_neg h1, if_neg h2]

theorem step_ssh_skip (euid : Nat) (parentOf : Nat → Option String) (reg : Registry)
    (p : ProcInfo) (hname : p.name = "ssh")
    (hp : parse p.cmdline = .error .valueError) :
    step euid parentOf reg (some p) = .ok reg := by
  simp only [step]
  rw [if_pos hname, hp]

theorem step_ssh_assert (euid : Nat) (parentOf : Nat → Option String) (reg : Registry)
    (p : ProcInfo) (hname : p.name = "ssh")
    (hp : parse p.cmdline = .error .assertionError) :
    step euid parentOf reg (some p) = .error (.parseErr .assertionError) := by
  simp only [step]
  rw [if_pos hname, hp]

theorem step_ssh_noparent (euid : Nat) (parentOf : Nat → Option String) (reg : Registry)
    (p : ProcInfo) (r : ParseOk) (hname : p.name = "ssh")
    (hp : parse p.cmdline = .ok r) (hpar : parentOf p.ppid = none) :
    step euid parentOf reg (some p) = .error .noSuchProcess := by
  simp only [step]
  rw [if_pos hname, hp, hpar]

theorem step_ssh_auto (euid : Nat) (parentOf : Nat → Option String) (reg : Registry)
    (p : ProcInfo) (r : ParseOk) (hname : p.name = "ssh")
    (hp : parse p.cmdline = .ok r) (hpar : parentOf p.ppid = some "autossh") :
    step euid parentOf reg (some p) =
      .ok (odSet reg p.ppid
        ⟨.auto p.ppid, p.pid, r.in_port, r.via_host, r.target_host,
          r.out_port, forwardName r.forward, p.connections.map mkConnection⟩) := by
  simp only [step]
  rw [if_pos hname, hp, hpar]
  rfl

theorem step_ssh_raw (euid : Nat) (parentOf : Nat → Option String) (reg : Registry)
    (p : ProcInfo) (r : ParseOk) (pname : String) (hname : p.name = "ssh")
    (hp : parse p.cmdline = .ok r) (hpar : parentOf p.ppid = some pname)
    (hauto : pname ≠ "autossh") :
    step euid parentOf reg (some p) =
      .ok (odSet reg p.pid
        ⟨.raw, p.pid, r.in_port, r.via_host, r.target_host,
          r.out_port, forwardName r.forward, p.connections.map mkConnection⟩) := by
  simp only [step]
  rw [if_pos hname, hp, hpar]
  simp [hauto]

theorem step_sshd_root (parentOf : Nat → Option String) (reg : Registry)
    (p : ProcInfo) (hname : p.name = "sshd") :
    step 0 parentOf reg (some p) =
      (if !(sshdFold p.connections).2.1 || !(sshdFold p.connections).2.2 then
        .ok (popLast (odSet reg p.pid
          ⟨.raw, p.pid, 0, "unknown", "unknown", 0, forwardName 'V',
            (sshdFold p.connections).1⟩))
      else
        .ok (odSet reg p.pid
          ⟨.raw, p.pid, 0, "unknown", "unknown", 0, forwardName 'V',
            (sshdFold p.connections).1⟩)) := by
  simp only [step]
  rw [hname]
  simp

theorem updateAux_append (euid : Nat) (parentOf : Nat → Option String)
    (l1 l2 : List (Option ProcInfo)) (reg : Registry) :
    updateAux euid parentOf reg (l1 ++ l2) =
      match updateAux euid parentOf reg l1 with
      | .ok r => updateAux euid parentOf r l2
      | .error e => .error e := by
  induction l1 generalizing reg with
  | nil => rfl
  | cons p ps ih =>
    rw [List.cons_append, updateAux, updateAux]
    cases hstep : step euid parentOf reg p with
    | ok reg' => exact ih reg'
    | error e => rfl

theorem parse_zero {cmd : List String}
    (h : findall (" ".intercalate cmd).data = []) :
    parse cmd = .error .valueError := by
  unfold parse
  rw [h]

theorem parse_multi {cmd : List String}
    (h : 2 ≤ (findall (" ".intercalate cmd).data).length) :
    parse cmd = .error .assertionError := by
  unfold parse
  cases hfa : findall (" ".intercalate cmd).data with
  | nil => rw [hfa] at h; simp at h
  | cons a t =>
    cases t with
    | nil => rw [hfa] at h; simp at h
    | cons b t2 => rfl

/-! ## The via-host scan as the specification words it (claim C4) -/

/-- Whether a token starts with `-`. -/
def startsWithDash (s : String) : Bool :=
  match s.data with
  | [] => false
  | c :: _ => c = '-'

/-- Whether a token's second character is one of the known no-argument flags. -/
def secondIsNoArg (s : String) : Bool :=
  match s.data with
  | _ :: c2 :: _ => noArgFlags.contains c2
  | _ => false

/-- Modelled from the spec: the via-host scan rule as the specification
states it — "the first token at index 1 or later that does not start with
`-`", where "a `-`-token whose second character is a known no-argument flag
is skipped alone, and any other `-`-token of exactly two characters whose
following token does not start with `-` also consumes that following token";
exhaustion yields `"unknown"`.  This function is the comparison point for
the code's `viaLoop` and is intentionally total (the specification mentions
no error cases). -/
def claimVia : List String → String
  | [] => "unknown"
  | [t] => if !startsWithDash t then t else "unknown"
  | t :: u :: rest2 =>
    if !startsWithDash t then t
    else if secondIsNoArg t then claimVia (u :: rest2)
    else if t.length = 2 && !startsWithDash u then claimVia rest2
    else claimVia (u :: rest2)

theorem viaSelArg_ne_found (next : Option (List Char)) : viaSelArg next ≠ .found := by
  cases next with
  | none => simp [viaSelArg]
  | some u =>
    cases u with
    | nil => simp [viaSelArg]
    | cons d rest =>
      rw [viaSelArg]
      split_ifs <;> simp

theorem viaSelDash_ne_found (ctail : List Char) (len : Nat) (next : Option (List Char)) :
    viaSelDash ctail len next ≠ .found := by
  cases ctail with
  | nil => simp [viaSelDash]
  | cons c2 rest =>
    rw [viaSelDash]
    split_ifs
    · simp
    · exact viaSelArg_ne_found next
    · simp

theorem viaSel_found {s : List Char} {len : Nat} {next : Option (List Char)}
    (h : viaSel s len next = .found) :
    ∃ c ctail, s = c :: ctail ∧ c ≠ '-' := by
  cases s with
  | nil => simp [viaSel] at h
  | cons c ctail =>
    rw [viaSel] at h
    by_cases hc : c = '-'
    · rw [if_pos hc] at h
      exact absurd h (viaSelDash_ne_found ctail len next)
    · exact ⟨c, ctail, rfl, hc⟩

theorem viaSel_skip_dash {s : List Char} {len : Nat} {next : Option (List Char)}
    (h : viaSel s len next = .skipOne ∨ viaSel s len next = .skipTwo) :
    ∃ ctail, s = '-' :: ctail := by
  cases s with
  | nil => rcases h with h | h <;> simp [viaSel] at h
  | cons c ctail =>
    by_cases hc : c = '-'
    · exact ⟨ctail, by rw [hc]⟩
    · rw [viaSel, if_neg hc] at h
      rcases h with h | h <;> simp at h

theorem startsWithDash_of_data {t : String} {ctail : List Char}
    (h : t.data = '-' :: ctail) : startsWithDash t = true := by
  rw [startsWithDash, h]
  simp

theorem startsWithDash_false_of_data {t : String} {c : Char} {ctail : List Char}
    (h : t.data = c :: ctail) (hc : c ≠ '-') : startsWithDash t = false := by
  rw [startsWithDash, h]
  simp [hc]

theorem claimVia_skipOne {t u : String} (rest2 : List String)
    (h : viaSel t.data t.length (some u.data) = .skipOne) :
    claimVia (t :: u :: rest2) = claimVia (u :: rest2) := by
  obtain ⟨ctail, htd⟩ := viaSel_skip_dash (Or.inl h)
  have hdash := startsWithDash_of_data htd
  rw [claimVia, hdash]
  simp only [Bool.not_true, Bool.false_eq_true, if_false]
  rw [htd, viaSel, if_pos rfl] at h
  cases ctail with
  | nil => simp [viaSelDash] at h
  | cons c2 rest =>
    have hsec : secondIsNoArg t = noArgFlags.contains c2 := by
      rw [secondIsNoArg, htd]
    rw [viaSelDash] at h
    by_cases hna : noArgFlags.contains c2
    · rw [hsec, if_pos hna]
    · rw [if_neg hna] at h
      rw [hsec, if_neg hna]
      by_cases hlen : t.length = 2
      · rw [if_pos hlen] at h
        cases hud : u.data with
        | nil => rw [hud] at h; simp [viaSelArg] at h
        | cons d dtail =>
          rw [hud] at h
          by_cases hd : d = '-'
          · have : startsWithDash u = true := startsWithDash_of_data (hd ▸ hud)
            rw [this]
            simp
          · rw [viaSelArg, if_neg hd] at h
            simp at h
      · rw [if_neg hlen] at h
        simp [hlen]

theorem claimVia_skipTwo {t u : String} (rest2 : List String)
    (h : viaSel t.data t.length (some u.data) = .skipTwo) :
    claimVia (t :: u :: rest2) = claimVia rest2 := by
  obtain ⟨ctail, htd⟩ := viaSel_skip_dash (Or.inr h)
  have hdash := startsWithDash_of_data htd
  rw [claimVia, hdash]
  simp only [Bool.not_true, Bool.false_eq_true, if_false]
  rw [htd, viaSel, if_pos rfl] at h
  cases ctail with
  | nil => simp [viaSelDash] at h
  | cons c2 rest =>
    have hsec : secondIsNoArg t = noArgFlags.contains c2 := by
      rw [secondIsNoArg, htd]
    rw [viaSelDash] at h
    by_cases hna : noArgFlags.contains c2
    · rw [if_pos hna] at h
      simp at h
    · rw [if_neg hna] at h
      rw [hsec, if_neg hna]
      by_cases hlen : t.length = 2
      · rw [if_pos hlen] at h
        cases hud : u.data with
        | nil => rw [hud] at h; simp [viaSelArg] at h
        | cons d dtail =>
          rw [hud] at h
          by_cases hd : d = '-'
          · rw [viaSelArg, if_pos hd] at h
            simp at h
          · have : startsWithDash u = false := startsWithDash_false_of_data hud hd
            rw [this, hlen]
            simp
      · rw [if_neg hlen] at h
        simp at h

/-- Wherever the code's scan succeeds, it returns exactly what the
specification's scan rule prescribes. -/
theorem viaLoop_eq_claimVia : ∀ (l : List String) (v : String),
    viaLoop l = .ok v → claimVia l = v
  | [], v, h => by
    rw [viaLoop] at h
    cases h
    rfl
  | [t], v, h => by
    rw [viaLoop] at h
    cases hs : viaSel t.data t.length none with
    | err => rw [hs] at h; exact absurd h (by simp)
    | found =>
      rw [hs] at h
      cases h
      obtain ⟨c, ctail, htd, hc⟩ := viaSel_found hs
      rw [claimVia, startsWithDash_false_of_data htd hc]
      rfl
    | skipOne =>
      rw [hs] at h
      cases h
      obtain ⟨ctail, htd⟩ := viaSel_skip_dash (Or.inl hs)
      rw [claimVia, startsWithDash_of_data htd]
      rfl
    | skipTwo =>
      rw [hs] at h
      cases h
      obtain ⟨ctail, htd⟩ := viaSel_skip_dash (Or.inr hs)
      rw [claimVia, startsWithDash_of_data htd]
      rfl
  | t :: u :: rest2, v, h => by
    rw [viaLoop] at h
    cases hs : viaSel t.data t.length (some u.data) with
    | err => rw [hs] at h; exact absurd h (by simp)
    | found =>
      rw [hs] at h
      cases h
      obtain ⟨c, ctail, htd, hc⟩ := viaSel_found hs
      rw [claimVia, startsWithDash_false_of_data htd hc]
      rfl
    | skipOne =>
      rw [hs] at h
      rw [claimVia_skipOne rest2 hs]
      exact viaLoop_eq_claimVia (u :: rest2) v h
    | skipTwo =>
      rw [hs] at h
      rw [claimVia_skipTwo rest2 hs]
      exact viaLoop_eq_claimVia rest2 v h

/-! ## The registry invariant behind claim C8 -/

/-- Every tunnel a refresh can register: either the synthetic reverse
placeholder (forward `"reverse"`, both ports `0`, both hosts `"unknown"`), or
a classified tunnel whose forward kind comes from a captured `L`/`R`/`D`. -/
def GoodTunnel (t : Tunnel) : Prop :=
  (t.forward = "reverse" ∧ t.in_port = 0 ∧ t.out_port = 0 ∧
    t.via_host = "unknown" ∧ t.target_host = "unknown") ∨
  t.forward = "local" ∨ t.forward = "remote" ∨ t.forward = "dynamic"

theorem step_good {euid : Nat} {parentOf : Nat → Option String} {reg : Registry}
    {p? : Option ProcInfo} {reg' : Registry}
    (h : step euid parentOf reg p? = .ok reg')
    (hreg : ∀ kt ∈ reg, GoodTunnel kt.2) : ∀ kt ∈ reg', GoodTunnel kt.2 := by
  cases p? with
  | none =>
    rw [step_none] at h
    cases h
    exact hreg
  | some p =>
    by_cases hssh : p.name = "ssh"
    · cases hp : parse p.cmdline with
      | error e =>
        cases e with
        | valueError =>
          rw [step_ssh_skip euid parentOf reg p hssh hp] at h
          cases h
          exact hreg
        | assertionError =>
          rw [step_ssh_assert euid parentOf reg p hssh hp] at h
          exact absurd h (by simp)
        | indexError =>
          simp only [step] at h
          rw [if_pos hssh, hp] at h
          exact absurd h (by simp)
      | ok r =>
        cases hpar : parentOf p.ppid with
        | none =>
          rw [step_ssh_noparent euid parentOf reg p r hssh hp hpar] at h
          exact absurd h (by simp)
        | some pname =>
          have hfwd := parse_fwd hp
          have hgood : GoodTunnel
              ⟨.raw, p.pid, r.in_port, r.via_host, r.target_host,
                r.out_port, forwardName r.forward, p.connections.map mkConnection⟩ := by
            rcases hfwd with h1 | h1 | h1
            · rw [h1]; simp [GoodTunnel, forwardName]
            · rw [h1]; simp [GoodTunnel, forwardName]
            · rw [h1]; simp [GoodTunnel, forwardName]
          have hgoodA : GoodTunnel
              ⟨.auto p.ppid, p.pid, r.in_port, r.via_host, r.target_host,
                r.out_port, forwardName r.forward, p.connections.map mkConnection⟩ := by
            rcases hfwd with h1 | h1 | h1
            · rw [h1]; simp [GoodTunnel, forwardName]
            · rw [h1]; simp [GoodTunnel, forwardName]
            · rw [h1]; simp [GoodTunnel, forwardName]
          by_cases hauto : pname = "autossh"
          · subst hauto
            rw [step_ssh_auto euid parentOf reg p r hssh hp hpar] at h
            cases h
            intro kt hkt
            rcases mem_odSet hkt with h1 | h2
            · rw [h1]
              exact hgoodA
            · exact hreg kt h2
          · rw [step_ssh_raw euid parentOf reg p r pname hssh hp hpar hauto] at h
            cases h
            intro kt hkt
            rcases mem_odSet hkt with h1 | h2
            · rw [h1]
              exact hgood
            · exact hreg kt h2
    · by_cases hsshd : p.name = "sshd"
      · by_cases heuid : euid = 0
        · subst heuid
          rw [step_sshd_root parentOf reg p hsshd] at h
          have hgood : GoodTunnel
              ⟨.raw, p.pid, 0, "unknown", "unknown", 0, forwardName 'V',
                (sshdFold p.connections).1⟩ := by
            simp [GoodTunnel, forwardName]
          split at h <;> cases h <;> intro kt hkt
          · rcases mem_odSet (mem_popLast hkt) with h1 | h2
            · rw [h1]; exact hgood
            · exact hreg kt h2
          · rcases mem_odSet hkt with h1 | h2
            · rw [h1]; exact hgood
            · exact hreg kt h2
        · simp only [step] at h
          rw [if_neg hssh, if_pos hsshd, if_pos heuid] at h
          cases h
          exact hreg
      · rw [step_other euid parentOf reg p hssh hsshd] at h
        cases h
        exact hreg

theorem updateAux_good {euid : Nat} {parentOf : Nat → Option String} :
    ∀ (procs : List (Option ProcInfo)) (reg regF : Registry),
      (∀ kt ∈ reg, GoodTunnel kt.2) →
      updateAux euid parentOf reg procs = .ok regF →
      ∀ kt ∈ regF, GoodTunnel kt.2 := by
  intro procs
  induction procs with
  | nil =>
    intro reg regF hreg h
    cases h
    exact hreg
  | cons p ps ih =>
    intro reg regF hreg h
    rw [updateAux] at h
    cases hstep : step euid parentOf reg p with
    | ok reg' =>
      rw [hstep] at h
      exact ih reg' regF (step_good hstep hreg) h
    | error e =>
      rw [hstep] at h
      exact absurd h (by simp)

/-! ## Helper lemmas: `str.split()`, column widths (claim C9) -/

/-- Intercalate a tab between cells at the character level. -/
def interTab : List (List Char) → List Char
  | [] => []
  | [c] => c
  | c :: c2 :: cs => c ++ '\t' :: interTab (c2 :: cs)

theorem pySplitAux_word : ∀ (w s acc : List Char),
    (∀ c ∈ w, isSpaceChar c = false) →
    pySplitAux (w ++ s) acc = pySplitAux s (w.reverse ++ acc) := by
  intro w
  induction w with
  | nil => intro s acc _; simp
  | cons c w ih =>
    intro s acc hw
    have hc : isSpaceChar c = false := hw c (List.mem_cons_self c w)
    rw [List.cons_append, pySplitAux, hc]
    simp only [Bool.false_eq_true, if_false]
    rw [ih s (c :: acc) (fun x hx => hw x (List.mem_cons_of_mem c hx))]
    simp

theorem pySplitAux_tab (s acc : List Char) (h : acc ≠ []) :
    pySplitAux ('\t' :: s) acc = acc.reverse :: pySplitAux s [] := by
  rw [pySplitAux]
  have : isSpaceChar '\t' = true := by decide
  rw [this]
  simp [List.isEmpty_iff, h]

theorem pySplitChars_interTab : ∀ (cells : List (List Char)),
    cells ≠ [] →
    (∀ w ∈ cells, w ≠ [] ∧ ∀ c ∈ w, isSpaceChar c = false) →
    pySplitChars (interTab cells) = cells
  | [], h, _ => absurd rfl h
  | [c], _, hc => by
    obtain ⟨hne, hns⟩ := hc c (List.mem_singleton_self c)
    rw [interTab, pySplitChars]
    have h0 : pySplitAux (c ++ []) [] = pySplitAux [] (c.reverse ++ []) :=
      pySplitAux_word c [] [] hns
    rw [List.append_nil] at h0
    rw [h0, List.append_nil, pySplitAux]
    have : c.reverse.isEmpty = false := by
      simp [List.isEmpty_iff, hne]
    rw [this]
    simp
  | c :: c2 :: cs, _, hc => by
    obtain ⟨hne, hns⟩ := hc c (List.mem_cons_self _ _)
    rw [interTab, pySplitChars, pySplitAux_word c _ [] hns, List.append_nil,
      pySplitAux_tab _ _ (by simp [hne]), List.reverse_reverse]
    rw [show pySplitAux (interTab (c2 :: cs)) [] = pySplitChars (interTab (c2 :: cs)) from rfl]
    rw [pySplitChars_interTab (c2 :: cs) (by simp)
      (fun w hw => hc w (List.mem_cons_of_mem c hw))]

theorem repr_tunnel_data (t : Tunnel) :
    (Tunnel.repr_tunnel t).data = interTab ((trueCells t).map String.data) := by
  cases hk : t.kind with
  | auto apid =>
    rw [Tunnel.repr_tunnel, trueCells, hk]
    simp only [List.map_cons, List.map_nil, interTab, String.data_append]
    simp [List.append_assoc]
  | raw =>
    rw [Tunnel.repr_tunnel, trueCells, hk]
    simp only [List.map_cons, List.map_nil, interTab, String.data_append]
    simp [List.append_assoc]

theorem pySplit_repr_tunnel (t : Tunnel)
    (h : ∀ c ∈ trueCells t, c ≠ "" ∧ ∀ ch ∈ c.data, isSpaceChar ch = false) :
    pySplit t.repr_tunnel = trueCells t := by
  rw [pySplit, repr_tunnel_data]
  rw [pySplitChars_interTab ((trueCells t).map String.data)
    (by simp [trueCells])
    (by
      intro w hw
      obtain ⟨c, hc, hcw⟩ := List.mem_map.mp hw
      obtain ⟨h1, h2⟩ := h c hc
      constructor
      · rw [← hcw]
        intro hdata
        exact h1 (by cases c with | mk d => cases hdata; rfl)
      · rw [← hcw]
        exact h2)]
  rw [List.map_map]
  have : (String.mk ∘ String.data) = id := by
    funext s
    cases s
    rfl
  rw [this, List.map_id]

theorem listMax_ge_of_mem {l : List Nat} {x : Nat} (h : x ∈ l) : x ≤ listMax l := by
  induction l with
  | nil => simp at h
  | cons a rest ih =>
    rw [listMax, List.foldr_cons]
    rcases List.mem_cons.mp h with h1 | h2
    · rw [h1]
      exact Nat.le_max_left _ _
    · exact Nat.le_trans (ih h2) (Nat.le_max_right _ _)

theorem listMax_all_eq {l : List Nat} {n : Nat} (hne : l ≠ [])
    (h : ∀ x ∈ l, x = n) : listMax l = n := by
  induction l with
  | nil => exact absurd rfl hne
  | cons a rest ih =>
    rw [listMax, List.foldr_cons]
    have ha : a = n := h a (List.mem_cons_self _ _)
    cases rest with
    | nil => simp [listMax, ha]
    | cons b r2 =>
      rw [show List.foldr max 0 (b :: r2) = listMax (b :: r2) from rfl]
      rw [ih (by simp) (fun x hx => h x (List.mem_cons_of_mem a hx)), ha]
      simp

theorem colWidths_getD {rows : List (List String)} {j : Nat}
    (hne : rows ≠ []) (hlen : ∀ r ∈ rows, r.length = 7) (hj : j < 7) :
    (colWidths rows).getD j 0 =
      listMax (rows.map (fun r => (r.getD j "").length)) := by
  have hmax : listMax (rows.map List.length) = 7 := by
    apply listMax_all_eq
    · simp [hne]
    · intro x hx
      obtain ⟨r, hr, hrx⟩ := List.mem_map.mp hx
      rw [← hrx]
      exact hlen r hr
  rw [colWidths, hmax]
  rw [List.getD_eq_getElem?_getD]
  rw [List.getElem?_map, List.getElem?_range hj]
  rfl


/-- A process whose step leaves the registry unchanged can be deleted from
the process list without changing the refresh. -/
theorem updateAux_skip (euid : Nat) (parentOf : Nat → Option String)
    {p : Option ProcInfo} (hstep : ∀ reg, step euid parentOf reg p = .ok reg) :
    ∀ (l1 l2 : List (Option ProcInfo)) (reg : Registry),
      updateAux euid parentOf reg (l1 ++ p :: l2) =
        updateAux euid parentOf reg (l1 ++ l2) := by
  intro l1
  induction l1 with
  | nil =>
    intro l2 reg
    rw [List.nil_append, List.nil_append, updateAux, hstep reg]
  | cons q qs ih =>
    intro l2 reg
    rw [List.cons_append, List.cons_append, updateAux, updateAux]
    cases hq : step euid parentOf reg q with
    | ok reg' => exact ih l2 reg'
    | error e => rfl

/-- `updateAux` over a concatenation, when the first block succeeds. -/
theorem updateAux_append_ok (euid : Nat) (parentOf : Nat → Option String)
    {l1 : List (Option ProcInfo)} (l2 : List (Option ProcInfo))
    {reg r : Registry} (h : updateAux euid parentOf reg l1 = .ok r) :
    updateAux euid parentOf reg (l1 ++ l2) = updateAux euid parentOf r l2 := by
  rw [updateAux_append, h]

/-! ## Concrete scenario data -/

/-- A parent table where pid 1 is `systemd` and everything else is gone. -/
def parSystemd : Nat → Option String :=
  fun n => if n = 1 then some "systemd" else none

/-- A parent table where pid 100 is `autossh` and everything else is gone. -/
def parAutossh : Nat → Option String :=
  fun n => if n = 100 then some "autossh" else none

/-- A parent table where every lookup hits a vanished process. -/
def parGone : Nat → Option String :=
  fun _ => none

/-- A pid liveness map under which every signal delivery fails. -/
def deadAll : Int → Bool :=
  fun _ => false

/-- An ssh process whose joined command line holds TWO forwarding-spec
matches: the newline inside the fourth token stops the greedy `.*`, so
`re.findall` returns both specs separately. -/
def procC1multi : ProcInfo :=
  ⟨400, 1, "ssh", ["ssh", "-L", "1:a:2", "x\ny", "-R", "3:b:4", "h"], []⟩

/-- A well-formed single-spec ssh process. -/
def procC1good : ProcInfo :=
  ⟨401, 1, "ssh", ["ssh", "-L", "8080:localhost:80", "example.com"], []⟩

/-- The tunnel `procC1good` registers on its own. -/
def tunC1good : Tunnel :=
  ⟨.raw, 401, 8080, "example.com", "localhost", 80, "local", []⟩

/-- An ssh process with no forwarding spec at all. -/
def procC1zero : ProcInfo :=
  ⟨402, 1, "ssh", ["ssh", "example.com"], []⟩

/-! ## C1 -/

/-- C1 (corrected): a zero-match ssh process is a per-process classification
failure — it is skipped and the refresh registers everything else as if the
process were absent; but a process with two or more forwarding-spec matches
fails `assert len(match) == 1`, and the `AssertionError` is NOT caught by
`update` (which only catches `ValueError`), so the whole refresh aborts with
the registry as built so far, and no later process is registered. -/
theorem C1_classification_failures :
    (∀ (euid : Nat) (parentOf : Nat → Option String) (p : ProcInfo)
        (l1 l2 : List (Option ProcInfo)),
      p.name = "ssh" →
      findall (" ".intercalate p.cmdline).data = [] →
      update euid parentOf (l1 ++ some p :: l2) = update euid parentOf (l1 ++ l2)) ∧
    (∀ (euid : Nat) (parentOf : Nat → Option String) (p : ProcInfo)
        (l1 l2 : List (Option ProcInfo)) (r : Registry),
      p.name = "ssh" →
      2 ≤ (findall (" ".intercalate p.cmdline).data).length →
      updateAux euid parentOf [] l1 = .ok r →
      update euid parentOf (l1 ++ some p :: l2) = .error (.parseErr .assertionError, r)) := by
  constructor
  · intro euid parentOf p l1 l2 hname hzero
    exact updateAux_skip euid parentOf
      (fun reg => step_ssh_skip euid parentOf reg p hname (parse_zero hzero)) l1 l2 []
  · intro euid parentOf p l1 l2 r hname hmulti hpart
    rw [update, updateAux_append_ok euid parentOf _ hpart, updateAux,
      step_ssh_assert euid parentOf r p hname (parse_multi hmulti)]

/-- Witness for C1: a concrete zero-match process is dropped without a trace,
and a concrete double-match process aborts the refresh from the start. -/
theorem C1_classification_failures_witness :
    update 1000 parSystemd ([some procC1good] ++ some procC1zero :: []) =
      update 1000 parSystemd ([some procC1good] ++ []) ∧
    update 1000 parSystemd ([] ++ some procC1multi :: [some procC1good]) =
      .error (.parseErr .assertionError, []) :=
  ⟨C1_classification_failures.1 1000 parSystemd procC1zero [some procC1good] [] rfl (by decide),
   C1_classification_failures.2 1000 parSystemd procC1multi [] [some procC1good] [] rfl
     (by decide) rfl⟩

/-- Counterexample to C1 as stated: with the double-match process present the
refresh does NOT complete — it aborts with an `AssertionError` (not a
per-process failure), and `procC1good`, which registers fine on its own, is
never registered. -/
theorem C1_counterexample :
    update 1000 parSystemd [some procC1multi, some procC1good] =
      .error (.parseErr .assertionError, []) ∧
    update 1000 parSystemd [some procC1good] = .ok [(401, tunC1good)] := by
  constructor
  · rfl
  · rfl


/-! ## C2 -/

/-- C2 (confirmed): a successfully classified `ssh` process registers exactly
one tunnel — written into the registry under one key, every other key
untouched: an AutoTunnel keyed by the parent's pid that stores the ssh pid
inside it when the parent's name is `autossh`, otherwise a RawTunnel keyed by
the ssh process's own pid. -/
theorem C2_registration (euid : Nat) (parentOf : Nat → Option String)
    (reg : Registry) (p : ProcInfo) (r : ParseOk) (pname : String)
    (hname : p.name = "ssh") (hp : parse p.cmdline = .ok r)
    (hpar : parentOf p.ppid = some pname) :
    ∃ key tun,
      step euid parentOf reg (some p) = .ok (odSet reg key tun) ∧
      tun.ssh_pid = p.pid ∧
      tun.in_port = r.in_port ∧ tun.via_host = r.via_host ∧
      tun.target_host = r.target_host ∧ tun.out_port = r.out_port ∧
      tun.forward = forwardName r.forward ∧
      tun.connections = p.connections.map mkConnection ∧
      odGet? (odSet reg key tun) key = some tun ∧
      (∀ k, k ≠ key → odGet? (odSet reg key tun) k = odGet? reg k) ∧
      (if pname = "autossh"
        then key = p.ppid ∧ tun.kind = .auto p.ppid
        else key = p.pid ∧ tun.kind = .raw) := by
  by_cases hauto : pname = "autossh"
  · subst hauto
    refine ⟨p.ppid,
      ⟨.auto p.ppid, p.pid, r.in_port, r.via_host, r.target_host,
        r.out_port, forwardName r.forward, p.connections.map mkConnection⟩,
      step_ssh_auto euid parentOf reg p r hname hp hpar,
      rfl, rfl, rfl, rfl, rfl, rfl, rfl,
      odGet?_odSet_self reg p.ppid _,
      fun k hk => odGet?_odSet_ne reg p.ppid k _ hk, ?_⟩
    rw [if_pos rfl]
    exact ⟨rfl, rfl⟩
  · refine ⟨p.pid,
      ⟨.raw, p.pid, r.in_port, r.via_host, r.target_host,
        r.out_port, forwardName r.forward, p.connections.map mkConnection⟩,
      step_ssh_raw euid parentOf reg p r pname hname hp hpar hauto,
      rfl, rfl, rfl, rfl, rfl, rfl, rfl,
      odGet?_odSet_self reg p.pid _,
      fun k hk => odGet?_odSet_ne reg p.pid k _ hk, ?_⟩
    rw [if_neg hauto]
    exact ⟨rfl, rfl⟩

/-- The autossh-supervised ssh process of the end-to-end scenario. -/
def procC2 : ProcInfo :=
  ⟨101, 100, "ssh", ["ssh", "-L", "8080:localhost:80", "example.com"], []⟩

/-- The classifier output for `procC2`. -/
def parseOkC2 : ParseOk :=
  ⟨8080, "example.com", "localhost", 80, 'L'⟩

/-- Witness for C2 at the concrete autossh scenario. -/
theorem C2_registration_witness :
    ∃ key tun,
      step 1000 parAutossh [] (some procC2) = .ok (odSet [] key tun) ∧
      tun.ssh_pid = procC2.pid ∧
      tun.in_port = parseOkC2.in_port ∧ tun.via_host = parseOkC2.via_host ∧
      tun.target_host = parseOkC2.target_host ∧ tun.out_port = parseOkC2.out_port ∧
      tun.forward = forwardName parseOkC2.forward ∧
      tun.connections = procC2.connections.map mkConnection ∧
      odGet? (odSet [] key tun) key = some tun ∧
      (∀ k, k ≠ key → odGet? (odSet [] key tun) k = odGet? [] k) ∧
      (if "autossh" = "autossh"
        then key = procC2.ppid ∧ tun.kind = .auto procC2.ppid
        else key = procC2.pid ∧ tun.kind = .raw) :=
  C2_registration 1000 parAutossh [] procC2 parseOkC2 "autossh" rfl (by rfl) rfl

/-! ## C3 -/

/-- C3 (confirmed): an `sshd` process scanned as root with a fresh pid stays
in the registry iff its socket list has at least one `ESTABLISHED` socket and
at least one with another status (otherwise the just-added placeholder is
`popitem`-ed away); when kept, its connection list is a block of established
connections followed by a block of non-established ones. -/
theorem C3_reverse_detection (parentOf : Nat → Option String) (reg : Registry)
    (p : ProcInfo) (hname : p.name = "sshd") (hfresh : p.pid ∉ rkeys reg) :
    ∃ reg', step 0 parentOf reg (some p) = .ok reg' ∧
      ((p.pid ∈ rkeys reg') ↔
        ((∃ c ∈ p.connections, c.status = "ESTABLISHED") ∧
         (∃ c ∈ p.connections, c.status ≠ "ESTABLISHED"))) ∧
      ∀ t, odGet? reg' p.pid = some t →
        ∃ lA lB, t.connections = lA ++ lB ∧
          (∀ c ∈ lA, c.status = "ESTABLISHED") ∧
          (∀ c ∈ lB, c.status ≠ "ESTABLISHED") := by
  rw [step_sshd_root parentOf reg p hname]
  have hest := sshdFold_est p.connections
  have hlis := sshdFold_lis p.connections
  have hiff_est : (sshdFold p.connections).2.1 = true ↔
      (∃ c ∈ p.connections, c.status = "ESTABLISHED") := by
    rw [hest, List.any_eq_true]
    constructor
    · rintro ⟨c, hc, hdec⟩
      exact ⟨c, hc, of_decide_eq_true hdec⟩
    · rintro ⟨c, hc, hs⟩
      exact ⟨c, hc, decide_eq_true hs⟩
  have hiff_lis : (sshdFold p.connections).2.2 = true ↔
      (∃ c ∈ p.connections, c.status ≠ "ESTABLISHED") := by
    rw [hlis, List.any_eq_true]
    constructor
    · rintro ⟨c, hc, hdec⟩
      simp only [Bool.not_eq_true'] at hdec
      exact ⟨c, hc, of_decide_eq_false hdec⟩
    · rintro ⟨c, hc, hs⟩
      refine ⟨c, hc, ?_⟩
      simp only [Bool.not_eq_true']
      exact decide_eq_false hs
  have hset := odSet_not_mem (r := reg) (k := p.pid)
    (v := ⟨.raw, p.pid, 0, "unknown", "unknown", 0, forwardName 'V',
      (sshdFold p.connections).1⟩) hfresh
  by_cases hcond : (!(sshdFold p.connections).2.1 || !(sshdFold p.connections).2.2) = true
  · rw [if_pos hcond]
    refine ⟨_, rfl, ?_, ?_⟩
    · rw [hset, popLast]
      simp only [List.dropLast_concat]
      constructor
      · intro hmem
        exact absurd hmem hfresh
      · rintro ⟨h1, h2⟩
        rw [hiff_est.mpr h1, hiff_lis.mpr h2] at hcond
        simp at hcond
    · intro t ht
      rw [hset, popLast] at ht
      simp only [List.dropLast_concat] at ht
      rw [odGet?_not_mem hfresh] at ht
      exact absurd ht (by simp)
  · rw [if_neg hcond]
    refine ⟨_, rfl, ?_, ?_⟩
    · rw [hset]
      constructor
      · intro _
        have hcond2 : (sshdFold p.connections).2.1 = true ∧
            (sshdFold p.connections).2.2 = true := by
          rcases Bool.eq_false_or_eq_true (sshdFold p.connections).2.1 with h1 | h1 <;>
            rcases Bool.eq_false_or_eq_true (sshdFold p.connections).2.2 with h2 | h2 <;>
            simp [h1, h2] at hcond ⊢
        exact ⟨hiff_est.mp hcond2.1, hiff_lis.mp hcond2.2⟩
      · intro _
        rw [rkeys, List.map_append]
        simp
    · intro t ht
      rw [odGet?_odSet_self] at ht
      have htt : t = ⟨.raw, p.pid, 0, "unknown", "unknown", 0, forwardName 'V',
          (sshdFold p.connections).1⟩ := by
        cases ht
        rfl
      refine ⟨((p.connections.filter
          (fun c => decide (c.status = "ESTABLISHED"))).reverse.map mkConnection),
        ((p.connections.filter
          (fun c => !decide (c.status = "ESTABLISHED"))).map mkConnection),
        ?_, ?_, ?_⟩
      · rw [htt]
        exact sshdFold_conns p.connections
      · intro c hc
        obtain ⟨si, hsi, hsic⟩ := List.mem_map.mp hc
        rw [List.mem_reverse] at hsi
        obtain ⟨_, hdec⟩ := List.mem_filter.mp hsi
        rw [← hsic]
        exact of_decide_eq_true hdec
      · intro c hc
        obtain ⟨si, hsi, hsic⟩ := List.mem_map.mp hc
        obtain ⟨_, hdec⟩ := List.mem_filter.mp hsi
        simp only [Bool.not_eq_true'] at hdec
        rw [← hsic]
        exact of_decide_eq_false hdec

/-- An sshd session with one established and one listening socket. -/
def procC3 : ProcInfo :=
  ⟨200, 1, "sshd", ["sshd: user@pts0"],
    [⟨("10.0.0.1", 22), some ("10.0.0.2", 5555), "ESTABLISHED", .inet⟩,
     ⟨("127.0.0.1", 9000), none, "LISTEN", .inet⟩]⟩

/-- Witness for C3 at the concrete sshd scenario. -/
theorem C3_reverse_detection_witness :
    ∃ reg', step 0 parSystemd [] (some procC3) = .ok reg' ∧
      ((procC3.pid ∈ rkeys reg') ↔
        ((∃ c ∈ procC3.connections, c.status = "ESTABLISHED") ∧
         (∃ c ∈ procC3.connections, c.status ≠ "ESTABLISHED"))) ∧
      ∀ t, odGet? reg' procC3.pid = some t →
        ∃ lA lB, t.connections = lA ++ lB ∧
          (∀ c ∈ lA, c.status = "ESTABLISHED") ∧
          (∀ c ∈ lB, c.status ≠ "ESTABLISHED") :=
  C3_reverse_detection parSystemd [] procC3 rfl (by decide)

/-! ## C4 -/

/-- C4 (confirmed): whenever classification succeeds, the reported via-host
is exactly what the specification's scan rule (`claimVia`, applied to the
tokens at index 1 and later) prescribes: the first token not starting with
`-` after skipping known no-argument flags alone and two-character flag
tokens together with their argument, with `"unknown"` on exhaustion. -/
theorem C4_via_host (cmd : List String) (r : ParseOk)
    (h : parse cmd = .ok r) : r.via_host = claimVia (cmd.drop 1) := by
  unfold parse at h
  cases hfa : findall (" ".intercalate cmd).data with
  | nil => rw [hfa] at h; exact absurd h (by simp)
  | cons m tail =>
    cases tail with
    | nil =>
      rw [hfa] at h
      cases hv : viaLoop (cmd.drop 1) with
      | error e => rw [hv] at h; exact absurd h (by simp)
      | ok v =>
        rw [hv] at h
        have hrv : r.via_host = v := by cases h; rfl
        rw [hrv, viaLoop_eq_claimVia (cmd.drop 1) v hv]
    | cons m2 t2 => rw [hfa] at h; exact absurd h (by simp)

/-- Witness for C4: `-p` consumes its argument `2222`, so the via-host is
`host`, matching the specification's scan on the same vector. -/
theorem C4_via_host_witness :
    (⟨8080, "host", "localhost", 80, 'L'⟩ : ParseOk).via_host =
      claimVia (["ssh", "-p", "2222", "-L", "8080:localhost:80", "host"].drop 1) :=
  C4_via_host ["ssh", "-p", "2222", "-L", "8080:localhost:80", "host"]
    ⟨8080, "host", "localhost", 80, 'L'⟩ (by rfl)


/-! ## C5 -/

/-- The established connection of the end-to-end scenario. -/
def sockC5 : SockInfo :=
  ⟨("127.0.0.1", 8080), none, "ESTABLISHED", .inet⟩

/-- The autossh-supervised ssh process of the end-to-end scenario, with its
one established connection attached. -/
def procC5 : ProcInfo :=
  ⟨101, 100, "ssh", ["ssh", "-L", "8080:localhost:80", "example.com"], [sockC5]⟩

/-- The AutoTunnel the scenario registers (key 100 = autossh pid). -/
def tunC5 : Tunnel :=
  ⟨.auto 100, 101, 8080, "example.com", "localhost", 80, "local", [mkConnection sockC5]⟩

/-- The exact output string the claim asserts. -/
def claimedC5 : String :=
  "TYPE\tFORWARD\tSSHPID\tINPORT\tVIA\tTARGET\tOUTPORT\nauto\tlocal\t101\t8080\texample.com\tlocalhost\t80"

/-- Counterexample to C5 as stated: the refresh does produce exactly the
claimed registry, but the default text output is NOT the claimed string —
`Tunnel.__repr__` appends a `"\n\t↳ ..."` line for the attached connection. -/
theorem C5_counterexample :
    update 1000 parAutossh [some procC5] = .ok [(100, tunC5)] ∧
    tpRepr [(100, tunC5)] ≠ claimedC5 := by
  constructor
  · rfl
  · decide

/-- C5 (corrected): the default text-mode output for the scenario is the
claimed header-plus-row string followed by one connection-detail line for the
attached established connection. -/
theorem C5_text_output :
    update 1000 parAutossh [some procC5] = .ok [(100, tunC5)] ∧
    tpRepr [(100, tunC5)] = claimedC5 ++ "\n\t↳ INET\tESTABLISHED\t127.0.0.1:8080" := by
  constructor
  · rfl
  · decide

/-! ## C6 -/

/-- C6 (corrected): a process that vanishes before `as_dict` returns (the
`none` entry) is silently skipped — the refresh is the refresh of the list
without it; but when an `ssh` process's PARENT has vanished by the time
`psutil.Process(ppid)` runs, the `NoSuchProcess` is NOT caught and the
refresh aborts. -/
theorem C6_ephemeral_loss :
    (∀ (euid : Nat) (parentOf : Nat → Option String)
        (l1 l2 : List (Option ProcInfo)),
      update euid parentOf (l1 ++ none :: l2) = update euid parentOf (l1 ++ l2)) ∧
    (∀ (euid : Nat) (parentOf : Nat → Option String) (reg : Registry)
        (p : ProcInfo) (r : ParseOk),
      p.name = "ssh" → parse p.cmdline = .ok r → parentOf p.ppid = none →
      step euid parentOf reg (some p) = .error .noSuchProcess) := by
  constructor
  · intro euid parentOf l1 l2
    exact updateAux_skip euid parentOf (fun reg => step_none euid parentOf reg) l1 l2 []
  · intro euid parentOf reg p r hname hp hpar
    exact step_ssh_noparent euid parentOf reg p r hname hp hpar

/-- An ssh process whose recorded parent pid 77 no longer exists. -/
def procC6 : ProcInfo :=
  ⟨501, 77, "ssh", ["ssh", "-L", "8080:localhost:80", "example.com"], []⟩

/-- Witness for C6: dropping a vanished enumeration entry changes nothing,
and a vanished parent aborts the step. -/
theorem C6_ephemeral_loss_witness :
    update 1000 parGone ([some procC1zero] ++ none :: [some procC1zero]) =
      update 1000 parGone ([some procC1zero] ++ [some procC1zero]) ∧
    step 1000 parGone [] (some procC6) = .error .noSuchProcess :=
  ⟨C6_ephemeral_loss.1 1000 parGone [some procC1zero] [some procC1zero],
   C6_ephemeral_loss.2 1000 parGone [] procC6 ⟨8080, "example.com", "localhost", 80, 'L'⟩
     rfl (by rfl) rfl⟩

/-- Counterexample to C6 as stated: the refresh over a single surviving ssh
process whose parent vanished does not complete at all — `NoSuchProcess`
escapes `update` — instead of skipping the process. -/
theorem C6_counterexample :
    update 1000 parGone [some procC6] = .error (.noSuchProcess, []) := by
  rfl

/-! ## C7 -/

/-- The AutoTunnel under the cursor in the reload scenario. -/
def tunC7 : Tunnel :=
  ⟨.auto 100, 101, 8080, "example.com", "localhost", 80, "local", []⟩

/-- Monitor state: the AutoTunnel is selected and its supervisor pid 100 is
tracked as the signal target. -/
def stC7 : MonState :=
  ⟨[(100, tunC7)], 0, 100⟩

/-- C7 (corrected): `do_R` wraps `os.kill` in NO try/except — when an
AutoTunnel is selected and its supervisor pid no longer exists, the `OSError`
propagates out of the handler (so the interactive loop dies) instead of being
caught and logged. -/
theorem C7_reload_uncaught (alive : Int → Bool) (s : MonState) (t : Tunnel)
    (apid : Nat) (hsel : s.cur_pid ≠ -1)
    (hget : getTunnel s.tunnels s.cur_line = some t)
    (hkind : t.kind = .auto apid) (hdead : alive s.cur_pid = false) :
    do_R alive s = .error .osError := by
  rw [do_R, if_pos hsel, hget]
  simp [hkind, hdead]

/-- Witness for C7: the concrete selected-AutoTunnel state with a dead
supervisor pid makes `do_R` raise. -/
theorem C7_reload_uncaught_witness : do_R deadAll stC7 = .error .osError :=
  C7_reload_uncaught deadAll stC7 tunC7 100 (by decide) rfl rfl rfl

/-- Counterexample to C7 as stated: in the same situation the claim demands a
recovered, non-fatal signal failure, but the handler result is an uncaught
`OSError`, not a normal `notquit` continuation. -/
theorem C7_counterexample :
    do_R deadAll stC7 = .error .osError ∧
    ∀ s' sigs, do_R deadAll stC7 ≠ .ok (true, s', sigs) := by
  refine ⟨rfl, ?_⟩
  intro s' sigs h
  have h2 : (Except.error .osError : Except UiErr (Bool × MonState × List Int)) =
      .ok (true, s', sigs) := by
    rw [← h]
    rfl
  exact Except.noConfusion h2


/-! ## C8 -/

/-- An ssh process forwarding with an explicit listening port `0` and target
port `0` (`ssh -L 0:localhost:0 server`). -/
def procC8 : ProcInfo :=
  ⟨300, 1, "ssh", ["ssh", "-L", "0:localhost:0", "server"], []⟩

/-- The tunnel `procC8` registers: a classified local tunnel with both ports
zero which is not the reverse placeholder. -/
def tunC8 : Tunnel :=
  ⟨.raw, 300, 0, "server", "localhost", 0, "local", []⟩

/-- Counterexample to C8 as stated: a refresh registers a tunnel whose
listening port is 0 yet which is not the synthetic reverse placeholder (its
via-host is a real host and its forward kind is `local`). -/
theorem C8_counterexample :
    update 1000 parSystemd [some procC8] = .ok [(300, tunC8)] ∧
    ¬(0 < tunC8.in_port) ∧ tunC8.via_host ≠ "unknown" ∧ tunC8.forward ≠ "reverse" := by
  refine ⟨by rfl, by decide, by decide, by decide⟩

/-- C8 (corrected): the invariant that survives is a disjunction — every
registered tunnel is either the reverse placeholder (forward `"reverse"`,
ports 0, hosts `"unknown"`) or a classified tunnel whose forward kind is
`local`, `remote` or `dynamic`; classified ports are the nonnegative integers
captured by the regex and may be 0. -/
theorem C8_registry_invariant (euid : Nat) (parentOf : Nat → Option String)
    (procs : List (Option ProcInfo)) (reg : Registry)
    (h : update euid parentOf procs = .ok reg) :
    ∀ kt ∈ reg, GoodTunnel kt.2 :=
  updateAux_good procs [] reg (by simp) h

/-- Witness for C8 on the concrete port-zero refresh: the registered tunnel
satisfies the invariant (as a classified local tunnel). -/
theorem C8_registry_invariant_witness : GoodTunnel tunC8 :=
  C8_registry_invariant 1000 parSystemd [some procC8] [(300, tunC8)] (by rfl)
    (300, tunC8) (List.mem_singleton_self _)

/-! ## C9 -/

/-- An ssh process whose forwarding spec has an empty target host
(`-L 8080::99999999`), producing an empty TARGET cell and a wide OUTPORT. -/
def procC9 : ProcInfo :=
  ⟨301, 1, "ssh", ["ssh", "-L", "8080::99999999", "server"], []⟩

/-- The tunnel `procC9` registers. -/
def tunC9 : Tunnel :=
  ⟨.raw, 301, 8080, "server", "", 99999999, "local", []⟩

/-- Counterexample to C9 as stated: with an empty TARGET cell, `split()`
drops the cell and shifts the row left, so the OUTPORT column width (7, from
the header alone) is smaller than the tunnel's true OUTPORT cell
`"99999999"` (length 8) — even though no cell contains internal whitespace. -/
theorem C9_counterexample :
    update 1000 parSystemd [some procC9] = .ok [(301, tunC9)] ∧
    (∀ c ∈ trueCells tunC9, ∀ ch ∈ c.data, isSpaceChar ch = false) ∧
    (fmtWidths [(301, tunC9)]).getD 6 0 < ((trueCells tunC9).getD 6 "").length := by
  refine ⟨by rfl, by decide, by decide⟩

/-- C9 (corrected): when additionally every cell is nonempty (and free of
whitespace), each of the 7 column widths accommodates both the header label
and every tunnel's true cell in that column. -/
theorem C9_column_widths (reg : Registry)
    (h : ∀ kt ∈ reg, ∀ c ∈ trueCells (Prod.snd kt),
      c ≠ "" ∧ ∀ ch ∈ c.data, isSpaceChar ch = false)
    (j : Nat) (hj : j < 7) :
    (headerCells.getD j "").length ≤ (fmtWidths reg).getD j 0 ∧
    ∀ kt ∈ reg, ((trueCells kt.2).getD j "").length ≤ (fmtWidths reg).getD j 0 := by
  have hrows_eq : reg.map (fun kv => pySplit kv.2.repr_tunnel) =
      reg.map (fun kv => trueCells kv.2) :=
    List.map_congr_left (fun kv hkv => pySplit_repr_tunnel kv.2 (h kv hkv))
  have hrows_len : ∀ r ∈ (reg.map (fun kv => pySplit kv.2.repr_tunnel)) ++ [headerCells],
      r.length = 7 := by
    intro row hrow
    rcases List.mem_append.mp hrow with h1 | h1
    · rw [hrows_eq] at h1
      obtain ⟨kv, _, hkv⟩ := List.mem_map.mp h1
      rw [← hkv, trueCells]
      rfl
    · rw [List.mem_singleton.mp h1]
      rfl
  have hne : (reg.map (fun kv => pySplit kv.2.repr_tunnel)) ++ [headerCells] ≠ [] := by
    simp
  have hw : (fmtWidths reg).getD j 0 =
      listMax ((((reg.map (fun kv => pySplit kv.2.repr_tunnel)) ++ [headerCells]).map
        (fun r => (r.getD j "").length))) := by
    rw [fmtWidths]
    exact colWidths_getD hne hrows_len hj
  constructor
  · rw [hw]
    apply listMax_ge_of_mem
    apply List.mem_map_of_mem
    exact List.mem_append_right _ (List.mem_singleton_self _)
  · intro kt hkt
    rw [hw]
    apply listMax_ge_of_mem
    apply List.mem_map_of_mem
    apply List.mem_append_left
    rw [hrows_eq]
    exact List.mem_map_of_mem _ hkt

/-- Witness for C9 on the autossh scenario registry (all cells nonempty and
whitespace-free), at the VIA column. -/
theorem C9_column_widths_witness :
    (headerCells.getD 4 "").length ≤ (fmtWidths [(100, tunC5)]).getD 4 0 ∧
    ∀ kt ∈ [(100, tunC5)], ((trueCells kt.2).getD 4 "").length ≤
      (fmtWidths [(100, tunC5)]).getD 4 0 :=
  C9_column_widths [(100, tunC5)] (by decide) 4 (by decide)

/-! ## C10 -/

/-- C10 (confirmed): dispatching close with nothing selected sends no signal
yet still decrements the selection and resets the controlling pid; repeated
closes from the unselected state drive `cur_line` to `-1 - n`, below the
documented floor of `-1`. -/
theorem C10_close_unselected :
    (∀ (alive : Int → Bool) (s : MonState), s.cur_pid = -1 →
      do_C alive s = .ok (true, { s with cur_line := s.cur_line - 1, cur_pid := -1 }, [])) ∧
    (∀ (alive : Int → Bool) (reg : Registry) (c : Int) (n : Nat),
      closeIter alive n ⟨reg, c, -1⟩ = ⟨reg, c - n, -1⟩) := by
  have h1 : ∀ (alive : Int → Bool) (s : MonState), s.cur_pid = -1 →
      do_C alive s = .ok (true, { s with cur_line := s.cur_line - 1, cur_pid := -1 }, []) := by
    intro alive s hsel
    rw [do_C, if_neg (fun hc => hc hsel)]
  refine ⟨h1, ?_⟩
  intro alive reg c n
  induction n generalizing c with
  | zero =>
    rw [closeIter]
    congr 1
    simp
  | succ n ih =>
    rw [closeIter, h1 alive ⟨reg, c, -1⟩ rfl]
    show closeIter alive n ⟨reg, c - 1, -1⟩ = ⟨reg, c - ((n : Int) + 1), -1⟩
    rw [ih (c - 1)]
    congr 1
    omega

/-- Witness for C10: three close presses from the unselected state leave the
selection at `-4`, with no signal sent on the first press. -/
theorem C10_close_unselected_witness :
    do_C deadAll ⟨[], -1, -1⟩ = .ok (true, ⟨[], -2, -1⟩, []) ∧
    closeIter deadAll 3 ⟨[], -1, -1⟩ = ⟨[], -4, -1⟩ :=
  ⟨C10_close_unselected.1 deadAll ⟨[], -1, -1⟩ rfl,
   C10_close_unselected.2 deadAll [] (-1) 3⟩


end Tunnelmon
